import Mathlib

/-!
Shallow embedding of the stock-quote proxy server (`src/server.js`, with the
validator module and the legacy variant `src/server_backup.js`).

Modelling conventions:
- JavaScript strings are Lean `String`s; an absent object field is `none`.
- A JavaScript number produced by `parseFloat` is modelled as `Option ℚ`,
  where `none` stands for `NaN` (IEEE-754 rounding is not modelled; no claim
  depends on it).
- `a || b` on (possibly absent) string fields is `jsOrStr`: the right operand
  is taken exactly when the left is absent or the empty string (the only
  falsy strings).
- Object key iteration (`Object.entries`) yields entries in insertion order
  for non-integer-like keys such as ISO dates, so a time-series object is
  modelled as the association list of its entries in that order.
-/

/-- Truthiness of a possibly-absent JavaScript string: `undefined` and `""`
are falsy, every other string is truthy. -/
def jsTruthy : Option String → Bool
  | none => false
  | some s => s ≠ ""

/-- JavaScript `a || b` on possibly-absent string fields: yields `b` exactly
when `a` is absent or falsy (the empty string). -/
def jsOrStr (a b : Option String) : Option String :=
  match a with
  | none => b
  | some s => if s = "" then b else a

/-- ASCII uppercase mapping of one character, as `String.prototype.toUpperCase`
performs on ASCII input (non-ASCII case mapping is outside every claim). -/
def jsCharUpper (c : Char) : Char :=
  if 'a' ≤ c ∧ c ≤ 'z' then Char.ofNat (c.toNat - 32) else c

/-- Model of `String.prototype.toUpperCase`, restricted to ASCII input. -/
def jsToUpper (s : String) : String :=
  ⟨s.data.map jsCharUpper⟩

/-- Does the character list `hay` start with `pat`? Helper for the model of
`String.prototype.includes`. -/
def startsWithSeq : List Char → List Char → Bool
  | _, [] => true
  | [], _ :: _ => false
  | a :: hay, b :: pat => a = b && startsWithSeq hay pat

/-- Does `hay` contain `pat` as a contiguous subsequence? Helper for the model
of `String.prototype.includes`. -/
def containsSeq : List Char → List Char → Bool
  | [], pat => pat.isEmpty
  | c :: rest, pat => startsWithSeq (c :: rest) pat || containsSeq rest pat

/-- Model of `hay.includes(pat)` on JavaScript strings. -/
def jsIncludes (hay pat : String) : Bool :=
  containsSeq hay.data pat.data

/-- Numeric value of an ASCII digit character. -/
def digitVal (c : Char) : ℕ := c.toNat - 48

/-- Value of a list of ASCII digit characters read in base 10. -/
def digitsToNat (l : List Char) : ℕ :=
  l.foldl (fun a c => a * 10 + digitVal c) 0

/-- Model of the JavaScript builtin `parseFloat`: skip leading whitespace,
then parse the longest prefix of the form `[+-]?digits[.digits]?[eE[+-]?digits]?`
(also accepting `.digits`), ignoring any trailing garbage; `none` models the
`NaN` result when no digit can be read. The `Infinity` literal is not
modelled (the provider never sends it and no claim mentions it). -/
def parseFloat (s : String) : Option ℚ :=
  let l := s.data.dropWhile (fun c => c = ' ' ∨ c = '\t' ∨ c = '\n' ∨ c = '\r')
  let sgn : ℚ := match l with
    | '-' :: _ => -1
    | _ => 1
  let l1 : List Char := match l with
    | '-' :: r => r
    | '+' :: r => r
    | _ => l
  let ip := l1.takeWhile Char.isDigit
  let l2 := l1.dropWhile Char.isDigit
  let fp : List Char := match l2 with
    | '.' :: r => r.takeWhile Char.isDigit
    | _ => []
  let l3 : List Char := match l2 with
    | '.' :: r => r.dropWhile Char.isDigit
    | _ => l2
  if ip.isEmpty ∧ fp.isEmpty then none
  else
    let mant : ℚ := (digitsToNat ip : ℚ) + (digitsToNat fp : ℚ) / (10 : ℚ) ^ fp.length
    let expo : ℤ := match l3 with
      | 'e' :: r | 'E' :: r =>
        let es : ℤ := match r with
          | '-' :: _ => -1
          | _ => 1
        let r2 : List Char := match r with
          | '-' :: t => t
          | '+' :: t => t
          | _ => r
        let ed := r2.takeWhile Char.isDigit
        if ed.isEmpty then 0 else es * (digitsToNat ed : ℤ)
      | _ => 0
    some (sgn * mant * (10 : ℚ) ^ expo)

/-- `parseFloat` applied to a possibly-absent field: `parseFloat(undefined)`
is `NaN`. -/
def parseFloatOpt : Option String → Option ℚ
  | none => none
  | some s => parseFloat s

/-- Is `c` an ASCII digit, phrased on the character's code point. -/
def isDigitChar (c : Char) : Bool :=
  decide (48 ≤ c.toNat) && decide (c.toNat ≤ 57)

/-- Parse a date key of the exact form `YYYY-MM-DD` (the provider's key
format, and the format `new Date` parses as an ISO calendar date), with the
calendar-range checks `1 ≤ month ≤ 12` and `1 ≤ day ≤ 31`; `none` for any
other string. -/
def parseIsoDate (s : String) : Option (ℕ × ℕ × ℕ) :=
  match s.data with
  | [y1, y2, y3, y4, h1, m1, m2, h2, d1, d2] =>
    if isDigitChar y1 && isDigitChar y2 && isDigitChar y3 && isDigitChar y4 && h1 = '-' &&
       isDigitChar m1 && isDigitChar m2 && h2 = '-' && isDigitChar d1 && isDigitChar d2 then
      if 1 ≤ digitVal m1 * 10 + digitVal m2 && digitVal m1 * 10 + digitVal m2 ≤ 12 &&
         1 ≤ digitVal d1 * 10 + digitVal d2 && digitVal d1 * 10 + digitVal d2 ≤ 31 then
        some (((digitVal y1 * 10 + digitVal y2) * 10 + digitVal y3) * 10 + digitVal y4,
              digitVal m1 * 10 + digitVal m2, digitVal d1 * 10 + digitVal d2)
      else none
    else none
  | _ => none

/-- Sort key for a date string: order-isomorphic to `new Date(s).getTime()`
on valid ISO `YYYY-MM-DD` keys (the regime every ordering claim assumes);
invalid keys are mapped to `0`, diverging from the ECMAScript NaN-comparator
behaviour that only invalid dates would exercise. -/
def dateVal (s : String) : ℕ :=
  match parseIsoDate s with
  | some (y, m, d) => y * 10000 + m * 100 + d + 1
  | none => 0

/-- One value of the provider's date-keyed time-series object: the
`'4. close'` field and the `'5. adjusted close'` fallback field. -/
structure TsEntry where
  close4 : Option String
  adj5 : Option String
deriving DecidableEq

/-- One element of the `closingPrices` array built by the handler:
`{date, close}` with `close = parseFloat(data['4. close'] || data['5. adjusted close'])`
(a JS number that may be `NaN`, modelled as `none`). -/
structure PricePoint where
  date : String
  close : Option ℚ
deriving DecidableEq

/-- The provider response body fields the handler reads: the
`'Time Series (Daily)'` object (as its entry list in key-insertion order),
the `'Note'` throttling notice, and the `'Information'` message. -/
structure ProviderBody where
  timeSeries : Option (List (String × TsEntry))
  note : Option String
  information : Option String
deriving DecidableEq

/-- The map step of `closingPrices` (server.js line 144-146): one entry
`[date, data]` becomes `{date, close: parseFloat(data['4. close'] || data['5. adjusted close'])}`. -/
def entryToPoint (e : String × TsEntry) : PricePoint :=
  ⟨e.1, parseFloatOpt (jsOrStr e.2.close4 e.2.adj5)⟩

/-- The comparator `(a, b) => new Date(a.date) - new Date(b.date)` as a
relation: at-most ordering of the date sort keys. -/
def dateLe (p q : PricePoint) : Prop := dateVal p.date ≤ dateVal q.date

instance : DecidableRel dateLe :=
  fun p q => Nat.decLe (dateVal p.date) (dateVal q.date)

instance : IsTotal PricePoint dateLe :=
  ⟨fun p q => Nat.le_total (dateVal p.date) (dateVal q.date)⟩

instance : IsTrans PricePoint dateLe :=
  ⟨fun _ _ _ h h' => Nat.le_trans h h'⟩

/-- The transform at server.js lines 144-147 (identical in the backup):
map each time-series entry to a `{date, close}` point and sort ascending by
date. A stable insertion sort models the required-stable ECMAScript
`Array.prototype.sort`. -/
def closingPrices (ts : List (String × TsEntry)) : List PricePoint :=
  List.insertionSort dateLe (ts.map entryToPoint)

/-- The allow-list `validSymbols` of `src/utils/validation.js` (shipped with
the server source). -/
def validSymbols : List String :=
  ["AAPL", "MSFT", "GOOGL", "AMZN", "META", "TSLA", "NVDA", "JPM", "V", "WMT"]

/-- The regular expression test at validation.js: `/^[A-Z]{1,5}$/.test(symbol)`. -/
def matchesSymbolPattern (s : String) : Bool :=
  decide (1 ≤ s.data.length) && decide (s.data.length ≤ 5) &&
    s.data.all (fun c => decide ('A' ≤ c) && decide (c ≤ 'Z'))

/-- `validateStockSymbol` of `src/utils/validation.js`: format check then
allow-list membership. No normalization happens here; the HTTP handler
uppercases the raw route parameter before calling it. -/
def validateStockSymbol (s : String) : Bool :=
  matchesSymbolPattern s && validSymbols.contains s

/-- One stored cache entry: the series and its insertion time in
milliseconds (node-cache stores the expiry `insertedAt + stdTTL * 1000`). -/
structure CacheEntry where
  value : List PricePoint
  insertedAt : ℕ
deriving DecidableEq

/-- The node-cache key-value store, as the association list of its entries. -/
abbrev CacheState : Type := List (String × CacheEntry)

/-- First-match association lookup on the cache store. -/
def lookupC : CacheState → String → Option CacheEntry
  | [], _ => none
  | (k, e) :: rest, key => if k = key then some e else lookupC rest key

/-- Association-list update: overwrite the entry for `k` in place, or append
a fresh key, matching JavaScript object/Map key-order semantics. -/
def setAssoc {α β : Type} [DecidableEq α] : List (α × β) → α → β → List (α × β)
  | [], k, v => [(k, v)]
  | (k', v') :: rest, k, v =>
    if k' = k then (k, v) :: rest else (k', v') :: setAssoc rest k v

/-- `cache.get(symbol)` with node-cache's lazy TTL check (`new NodeCache({stdTTL: 3600})`,
server.js line 42): an entry is served while `now ≤ insertedAt + 3600 * 1000`
and treated as absent afterwards. Node-cache also deletes an expired entry it
finds during `get`; that deletion is observationally neutral (every later
`get` already treats the entry as absent) and is not modelled. -/
def cacheGet (c : CacheState) (key : String) (now : ℕ) : Option (List PricePoint) :=
  match lookupC c key with
  | none => none
  | some e => if now ≤ e.insertedAt + 3600 * 1000 then some e.value else none

/-- `cache.set(symbol, closingPrices)` at time `t` (server.js line 149):
store the series with a fresh TTL clock, overwriting any prior entry. -/
def cacheSet (c : CacheState) (key : String) (v : List PricePoint) (t : ℕ) : CacheState :=
  setAssoc c key ⟨v, t⟩

/-- One per-day usage record of the backup server's tracker: the daily total
and the per-hour / per-minute sub-counts as association lists. -/
structure UsageRecord where
  daily : ℕ
  hourly : List (ℕ × ℕ)
  minutely : List (ℕ × ℕ)
deriving DecidableEq

/-- The backup server's `apiUsage` map, keyed by the `year-month-day` string. -/
abbrev UsageState : Type := List (String × UsageRecord)

/-- First-match association lookup on the usage map. -/
def lookupU : UsageState → String → Option UsageRecord
  | [], _ => none
  | (k, u) :: rest, key => if k = key then some u else lookupU rest key

/-- First-match association lookup on a numeric-keyed counter list, as
`usage.hourly[hour]` reads. -/
def getCount : List (ℕ × ℕ) → ℕ → Option ℕ
  | [], _ => none
  | (k, n) :: rest, key => if k = key then some n else getCount rest key

/-- The wall-clock instant a request observes: `Date.now()` in milliseconds
together with the broken-down fields `getFullYear`/`getMonth`/`getDate`/
`getHours`/`getMinutes` of the same instant. -/
structure Clock where
  nowMs : ℕ
  year : ℕ
  month : ℕ
  day : ℕ
  hour : ℕ
  minute : ℕ

/-- `trackApiUsage(symbol)` of server_backup.js lines 47-74: bump the daily
counter of the `year-month-day` record (created lazily) and the sub-counters
for the current hour and minute. The tracked symbol only feeds the log line,
not the stored state. -/
def trackApiUsage (usage : UsageState) (c : Clock) : UsageState :=
  let key := toString c.year ++ "-" ++ toString c.month ++ "-" ++ toString c.day
  let u := (lookupU usage key).getD ⟨0, [], []⟩
  let u' : UsageRecord :=
    { daily := u.daily + 1
      hourly := setAssoc u.hourly c.hour ((getCount u.hourly c.hour).getD 0 + 1)
      minutely := setAssoc u.minutely c.minute ((getCount u.minutely c.minute).getD 0 + 1) }
  setAssoc usage key u'

/-- The two ways the response-construction `try` block of server.js lines
153-202 can fail, both answered with the 500
`{status: 'error', error: 'Failed to construct valid response', details}`
body: the explicit `Invalid price data at index ...` throw (whose message
carries the offending index and point), or `JSON.parse` rejecting the
hand-built string (whose message carries no index or date). -/
inductive ConstructFailure where
  | invalidPriceData (index : ℕ) (item : PricePoint)
  | jsonSyntaxError
deriving DecidableEq

/-- Outcome of one `/api/stock/:symbol` request:
`ok symbol closingPrices cached` for the success body, `err message status`
for a `res.apiError(message, status)` reply, and `constructErr` for the 500
sent when building the success response failed. -/
inductive Outcome where
  | ok (symbol : String) (closingPrices : List PricePoint) (cached : Bool)
  | err (msg : String) (code : ℕ)
  | constructErr (details : ConstructFailure)
deriving DecidableEq

/-- HTTP status code carried by an outcome. -/
def outcomeStatus : Outcome → ℕ
  | .ok _ _ _ => 200
  | .err _ code => code
  | .constructErr _ => 500

/-- What the provider interaction produced: the promise rejected
(`netFail`, any axios error), the response arrived with a falsy `data`
(`nullData`, which makes the guard's later field access throw), or a JSON
body (`body`). -/
inductive ProviderResult where
  | netFail
  | nullData
  | body (b : ProviderBody)
deriving DecidableEq

/-- Server.js lines 131-139: the reply chosen when the body lacks the
`'Time Series (Daily)'` field. 429 only when the truthy `Note` contains the
substring `API rate limit`; otherwise a 400 carrying the `Information`
message when that field is truthy; otherwise the 404. -/
def missingTsResponse (b : ProviderBody) : Outcome :=
  if jsTruthy b.note && jsIncludes ((b.note).getD "") "API rate limit" then
    .err "Alpha Vantage API limit reached (5 requests/minute). Please wait 1 minute." 429
  else if jsTruthy b.information then
    .err ((b.information).getD "") 400
  else
    .err "No data found for symbol" 404

/-- Server_backup.js lines 185-191: the legacy guard answers 429 with
`Note || Information` whenever either field is truthy, else the 404. -/
def missingTsResponseBackup (b : ProviderBody) : Outcome :=
  if jsTruthy (jsOrStr b.note b.information) then
    .err ((jsOrStr b.note b.information).getD "") 429
  else
    .err "No data found for symbol" 404

/-- The per-item guard of the response-building loop (server.js line 165):
`!item.date || typeof item.close !== 'number'`. `item.close` is always the
result of `parseFloat`, hence of JavaScript type `number` even when it is
`NaN`, so the second disjunct is identically false; only an empty (falsy)
date string can trip the guard. -/
def itemGuardTrips (p : PricePoint) : Bool :=
  p.date = "" || !true

/-- First index (and item) at which the building loop of server.js lines
164-178 throws `Invalid price data at index ...`, scanning in order. -/
def firstBadPoint : List PricePoint → ℕ → Option (ℕ × PricePoint)
  | [], _ => none
  | p :: rest, i => if itemGuardTrips p then some (i, p) else firstBadPoint rest (i + 1)

/-- May a date string be spliced verbatim between double quotes without
breaking the hand-built JSON of server.js lines 157-187? The interpolation
performs no escaping, so a quote, backslash or control character breaks it. -/
def jsonStringSafe (s : String) : Bool :=
  s.data.all (fun c => decide (c ≠ '"') && decide (c ≠ '\\') && decide (32 ≤ c.toNat))

/-- Does `JSON.parse` accept the hand-built response string (server.js line
190)? Every `close` is spliced via template interpolation, so a `NaN` close
becomes the invalid token `NaN`; every date must splice safely. A finite
`close` renders as a JavaScript numeric literal, which is valid JSON. -/
def builtJsonParses (cp : List PricePoint) : Bool :=
  cp.all (fun p => p.close.isSome && jsonStringSafe p.date)

/-- The response-construction block of server.js lines 153-202 for a
freshly-fetched series: the explicit per-item throw wins if some item trips
the guard; otherwise `JSON.parse` validation decides between the success
send and the generic construction-failure 500. -/
def buildResponseOutcome (symbol : String) (cp : List PricePoint) : Outcome :=
  match firstBadPoint cp 0 with
  | some (i, p) => .constructErr (.invalidPriceData i p)
  | none =>
    if builtJsonParses cp then .ok symbol cp false
    else .constructErr .jsonSyntaxError

/-- The `/api/stock/:symbol` handler of server.js lines 85-210, as a function
of the incoming state and the provider interaction's result. Arguments:
cache state, `Date.now()` at the cache lookup, the raw route parameter, the
provider result, and the instant `tSet` at which `cache.set` runs on the
fetch path (after the call and the 13 s delay). Returns the outcome, the
new cache state, and whether an outbound provider call was dispatched.
The 13-second `setTimeout` (line 128) suspends only this handler and reads
or writes no shared state; its timing behaviour is modelled separately by
`MissRequest`. -/
def stockHandler (st : CacheState) (now : ℕ) (raw : String)
    (resp : ProviderResult) (tSet : ℕ) : Outcome × CacheState × Bool :=
  let symbol := jsToUpper raw
  if !validateStockSymbol symbol then
    (.err "Invalid stock symbol" 400, st, false)
  else
    match cacheGet st symbol now with
    | some series =>
      (.ok symbol (series.map (fun p => ⟨p.date, p.close⟩)) true, st, false)
    | none =>
      match resp with
      | .netFail => (.err "Failed to process stock data" 500, st, true)
      | .nullData => (.err "Failed to process stock data" 500, st, true)
      | .body b =>
        match b.timeSeries with
        | none => (missingTsResponse b, st, true)
        | some ts =>
          let cp := closingPrices ts
          (buildResponseOutcome symbol cp, cacheSet st symbol cp tSet, true)

/-- The `/api/stock/:symbol` handler of server_backup.js lines 144-218.
Differences from the current server: `trackApiUsage` runs on every cache
miss before the outbound call, the missing-time-series guard is the legacy
one, and the success reply goes through `res.apiSuccess` (no hand-built
JSON, so a `NaN` close cannot fail the response). Returns the outcome, the
new cache and usage states, and the outbound-call flag. -/
def stockHandlerBackup (st : CacheState) (usage : UsageState) (c : Clock)
    (raw : String) (resp : ProviderResult) (tSet : ℕ) :
    Outcome × (CacheState × UsageState) × Bool :=
  let symbol := jsToUpper raw
  if !validateStockSymbol symbol then
    (.err "Invalid stock symbol" 400, (st, usage), false)
  else
    match cacheGet st symbol c.nowMs with
    | some series => (.ok symbol series true, (st, usage), false)
    | none =>
      let usage' := trackApiUsage usage c
      match resp with
      | .netFail => (.err "Failed to process stock data" 500, (st, usage'), true)
      | .nullData => (.err "Failed to process stock data" 500, (st, usage'), true)
      | .body b =>
        match b.timeSeries with
        | none => (missingTsResponseBackup b, (st, usage'), true)
        | some ts =>
          let cp := closingPrices ts
          (.ok symbol cp false, (cacheSet st symbol cp tSet, usage'), true)

/-- Timeline of one cache-miss request through the server.js handler, in
milliseconds. Validation and the cache lookup are synchronous, so the
outbound call (line 117) is dispatched at the request's start; the
`setTimeout` of 13000 ms (line 128) runs after the call returns. No shared
rate-gate state exists anywhere in the handler, so a request's dispatch time
depends only on its own start time, never on other requests. -/
structure MissRequest where
  start : ℕ
  callDuration : ℕ

/-- Instant at which the request's outbound provider call is dispatched. -/
def dispatchTime (r : MissRequest) : ℕ := r.start

/-- Instant at which the request's outbound provider call returns. -/
def callEndTime (r : MissRequest) : ℕ := r.start + r.callDuration

/-- Instant at which the handler resumes after its 13000 ms post-call delay. -/
def handlerDone (r : MissRequest) : ℕ := callEndTime r + 13000

/-- Field names of the JSON body sent by `res.apiError` (server.js lines
57-63). -/
def apiErrorFields : List String := ["status", "error", "timestamp"]

/-- Field names of the success body (both the cached reply of lines 97-109
and the hand-built reply of lines 157-187). -/
def apiSuccessFields : List String := ["status", "data", "timestamp"]

/-- Field names of the construction-failure 500 body (server.js lines
197-201): no `timestamp` field. -/
def constructErrorFields : List String := ["status", "error", "details"]

/-- Top-level field names of the HTTP body that carries each outcome. -/
def responseFields : Outcome → List String
  | .ok _ _ _ => apiSuccessFields
  | .err _ _ => apiErrorFields
  | .constructErr _ => constructErrorFields

/-! ## Helper lemmas -/

/-- Looking up the key just stored by `setAssoc` yields the stored entry. -/
theorem lookupC_setAssoc (c : CacheState) (k : String) (e : CacheEntry) :
    lookupC (setAssoc c k e) k = some e := by
  induction c with
  | nil => simp [setAssoc, lookupC]
  | cons hd tl ih =>
    obtain ⟨k', e'⟩ := hd
    by_cases h : k' = k
    · simp [setAssoc, h, lookupC]
    · simp [setAssoc, h, lookupC, ih]

/-- `buildResponseOutcome` never answers through `res.apiError`: it either
sends the success body or the construction-failure 500. -/
theorem buildResponseOutcome_ne_err (sym : String) (cp : List PricePoint)
    (msg : String) (code : ℕ) : buildResponseOutcome sym cp ≠ Outcome.err msg code := by
  unfold buildResponseOutcome
  split
  · simp
  · split <;> simp

/-- `Char.toNat` is injective. -/
theorem char_eq_of_toNat_eq {c d : Char} (h : c.toNat = d.toNat) : c = d := by
  rw [← Char.ofNat_toNat c, ← Char.ofNat_toNat d, h]

/-- Two ASCII digits with the same numeric value are the same character. -/
theorem digit_char_eq {c d : Char} (hc : isDigitChar c = true) (hd : isDigitChar d = true)
    (h : digitVal c = digitVal d) : c = d := by
  unfold isDigitChar at hc hd
  unfold digitVal at h
  simp only [Bool.and_eq_true, decide_eq_true_eq] at hc hd
  exact char_eq_of_toNat_eq (by omega)

/-- The month and day of a successfully parsed date key are in calendar range. -/
theorem parseIsoDate_bounds {s : String} {y m d : ℕ}
    (h : parseIsoDate s = some (y, m, d)) : 1 ≤ m ∧ m ≤ 12 ∧ 1 ≤ d ∧ d ≤ 31 := by
  unfold parseIsoDate at h
  split at h
  · split at h
    · split at h
      · rename_i hrange
        simp only [Bool.and_eq_true, decide_eq_true_eq] at hrange
        simp only [Option.some.injEq, Prod.mk.injEq] at h
        omega
      · exact absurd h (by simp)
    · exact absurd h (by simp)
  · exact absurd h (by simp)

/-- Distinct successfully-parsed date keys have distinct sort keys. -/
theorem dateVal_ne_of_parse_ne {s t : String}
    (hs : (parseIsoDate s).isSome = true) (ht : (parseIsoDate t).isSome = true)
    (hne : parseIsoDate s ≠ parseIsoDate t) : dateVal s ≠ dateVal t := by
  obtain ⟨⟨ys, ms, ds⟩, hs'⟩ := Option.isSome_iff_exists.mp hs
  obtain ⟨⟨yt, mt, dt⟩, ht'⟩ := Option.isSome_iff_exists.mp ht
  have hbs := parseIsoDate_bounds hs'
  have hbt := parseIsoDate_bounds ht'
  unfold dateVal
  rw [hs', ht']
  simp only []
  intro heq
  apply hne
  rw [hs', ht']
  have : ys = yt ∧ ms = mt ∧ ds = dt := by omega
  rw [this.1, this.2.1, this.2.2]

/-- Every ASCII digit has numeric value at most nine. -/
theorem digitVal_le_nine {c : Char} (hc : isDigitChar c = true) : digitVal c ≤ 9 := by
  unfold isDigitChar at hc
  unfold digitVal
  simp only [Bool.and_eq_true, decide_eq_true_eq] at hc
  omega

theorem parseIsoDate_inj {s t : String} {v : ℕ × ℕ × ℕ}
    (hs : parseIsoDate s = some v) (ht : parseIsoDate t = some v) : s = t := by
  obtain ⟨y, m, d⟩ := v
  unfold parseIsoDate at hs ht
  split at hs
  case h_2 => exact absurd hs (by simp)
  rename_i xs a1 a2 a3 a4 b1 c1 c2 b2 e1 e2 heqs
  split at hs
  case isFalse => exact absurd hs (by simp)
  rename_i hconds
  split at hs
  case isFalse => exact absurd hs (by simp)
  rename_i hranges
  split at ht
  case h_2 => exact absurd ht (by simp)
  rename_i xt f1 f2 f3 f4 g1 k1 k2 g2 n1 n2 heqt
  split at ht
  case isFalse => exact absurd ht (by simp)
  rename_i hcondt
  split at ht
  case isFalse => exact absurd ht (by simp)
  rename_i hranget
  simp only [Option.some.injEq, Prod.mk.injEq] at hs ht
  simp only [Bool.and_eq_true, decide_eq_true_eq] at hconds hcondt
  obtain ⟨⟨⟨⟨⟨⟨⟨⟨⟨ha1, ha2⟩, ha3⟩, ha4⟩, hb1⟩, hc1⟩, hc2⟩, hb2⟩, he1⟩, he2⟩ := hconds
  obtain ⟨⟨⟨⟨⟨⟨⟨⟨⟨hf1, hf2⟩, hf3⟩, hf4⟩, hg1⟩, hk1⟩, hk2⟩, hg2⟩, hn1⟩, hn2⟩ := hcondt
  have q1 := digitVal_le_nine ha1
  have q2 := digitVal_le_nine ha2
  have q3 := digitVal_le_nine ha3
  have q4 := digitVal_le_nine ha4
  have q5 := digitVal_le_nine hc1
  have q6 := digitVal_le_nine hc2
  have q7 := digitVal_le_nine he1
  have q8 := digitVal_le_nine he2
  have r1 := digitVal_le_nine hf1
  have r2 := digitVal_le_nine hf2
  have r3 := digitVal_le_nine hf3
  have r4 := digitVal_le_nine hf4
  have r5 := digitVal_le_nine hk1
  have r6 := digitVal_le_nine hk2
  have r7 := digitVal_le_nine hn1
  have r8 := digitVal_le_nine hn2
  apply String.ext
  rw [heqs, heqt]
  have d1 : digitVal a1 = digitVal f1 ∧ digitVal a2 = digitVal f2 ∧
      digitVal a3 = digitVal f3 ∧ digitVal a4 = digitVal f4 := by omega
  have d2 : digitVal c1 = digitVal k1 ∧ digitVal c2 = digitVal k2 := by omega
  have d3 : digitVal e1 = digitVal n1 ∧ digitVal e2 = digitVal n2 := by omega
  rw [digit_char_eq ha1 hf1 d1.1, digit_char_eq ha2 hf2 d1.2.1,
      digit_char_eq ha3 hf3 d1.2.2.1, digit_char_eq ha4 hf4 d1.2.2.2,
      digit_char_eq hc1 hk1 d2.1, digit_char_eq hc2 hk2 d2.2,
      digit_char_eq he1 hn1 d3.1, digit_char_eq he2 hn2 d3.2,
      hb1, hg1, hb2, hg2]

/-! ## Claim theorems -/

/-- C1 (counterexample): a body lacking the time-series field and carrying no
throttling notice, only an `Information` message, is answered with a 400
carrying that message by the current server (and a 429 by the legacy backup)
rather than the `NotFound` 404 the claim requires for every
notice-free, series-free response. -/
theorem C1_counterexample :
    (ProviderBody.mk none none (some "Invalid API call")).timeSeries = none ∧
    jsTruthy (ProviderBody.mk none none (some "Invalid API call")).note = false ∧
    missingTsResponse ⟨none, none, some "Invalid API call"⟩ = .err "Invalid API call" 400 ∧
    missingTsResponseBackup ⟨none, none, some "Invalid API call"⟩ = .err "Invalid API call" 429 ∧
    (stockHandler [] 0 "AAPL" (.body ⟨none, none, some "Invalid API call"⟩) 0).1 =
      .err "Invalid API call" 400 := by
  decide

/-- C1 (amended): on a cache miss for a valid symbol, when the body lacks the
time-series field the current server answers 429 exactly when the truthy
notice contains `API rate limit`, else 400 with the `Information` message
when that field is truthy, else 404; the legacy backup answers 429 with
`Note || Information` when either field is truthy, else 404. -/
theorem C1_amended (st : CacheState) (usage : UsageState) (c : Clock) (now : ℕ)
    (raw : String) (b : ProviderBody) (tSet : ℕ)
    (hv : validateStockSymbol (jsToUpper raw) = true)
    (hm : cacheGet st (jsToUpper raw) now = none)
    (hmB : cacheGet st (jsToUpper raw) c.nowMs = none)
    (hts : b.timeSeries = none) :
    ((jsTruthy b.note && jsIncludes (b.note.getD "") "API rate limit") = true →
      (stockHandler st now raw (.body b) tSet).1 =
        .err "Alpha Vantage API limit reached (5 requests/minute). Please wait 1 minute." 429) ∧
    ((jsTruthy b.note && jsIncludes (b.note.getD "") "API rate limit") = false →
      jsTruthy b.information = true →
      (stockHandler st now raw (.body b) tSet).1 = .err (b.information.getD "") 400) ∧
    ((jsTruthy b.note && jsIncludes (b.note.getD "") "API rate limit") = false →
      jsTruthy b.information = false →
      (stockHandler st now raw (.body b) tSet).1 = .err "No data found for symbol" 404) ∧
    (jsTruthy (jsOrStr b.note b.information) = true →
      (stockHandlerBackup st usage c raw (.body b) tSet).1 =
        .err ((jsOrStr b.note b.information).getD "") 429) ∧
    (jsTruthy (jsOrStr b.note b.information) = false →
      (stockHandlerBackup st usage c raw (.body b) tSet).1 =
        .err "No data found for symbol" 404) := by
  have h1 : (stockHandler st now raw (.body b) tSet).1 = missingTsResponse b := by
    simp [stockHandler, hv, hm, hts]
  have h2 : (stockHandlerBackup st usage c raw (.body b) tSet).1 =
      missingTsResponseBackup b := by
    simp [stockHandlerBackup, hv, hmB, hts]
  rw [h1, h2]
  unfold missingTsResponse missingTsResponseBackup
  refine ⟨fun hn => ?_, fun hn hi => ?_, fun hn hi => ?_, fun ho => ?_, fun ho => ?_⟩
  · simp [hn]
  · simp [hn, hi]
  · simp [hn, hi]
  · simp [ho]
  · simp [ho]

/-- C1 (amended, witness): a cache-miss request for `AAPL` whose provider
body has only a rate-limit notice is answered 429. -/
theorem C1_amended_witness :
    (stockHandler [] 0 "AAPL"
        (.body ⟨none, some "Thank you! Our API rate limit is 5 requests per minute.", none⟩) 0).1 =
      .err "Alpha Vantage API limit reached (5 requests/minute). Please wait 1 minute." 429 :=
  (C1_amended [] [] ⟨0, 0, 0, 0, 0, 0⟩ 0 "AAPL"
      ⟨none, some "Thank you! Our API rate limit is 5 requests per minute.", none⟩ 0
      (by decide) (by decide) (by decide) (by decide)).1 (by decide)

/-- C2 (counterexample): two cache-miss requests interleaved on the event
loop — the second starting 1000 ms after the first, while the first's
provider call is still in flight — dispatch their provider calls 1000 ms
apart: less than 13 seconds start-to-start, and overlapping. -/
theorem C2_counterexample :
    (MissRequest.mk 0 2000).start ≤ (MissRequest.mk 1000 500).start ∧
    dispatchTime ⟨1000, 500⟩ < callEndTime ⟨0, 2000⟩ ∧
    dispatchTime ⟨1000, 500⟩ < dispatchTime ⟨0, 2000⟩ + 13000 := by
  decide

/-- C2 (amended): the 13000 ms delay is applied inside each request after its
own provider call returns, so it separates only requests issued sequentially:
a cache-miss request that starts after another's handler has finished
dispatches its provider call at least 13 seconds after the end — hence also
after the start — of the other's call. -/
theorem C2_amended (r1 r2 : MissRequest) (h : handlerDone r1 ≤ r2.start) :
    callEndTime r1 + 13000 ≤ dispatchTime r2 ∧
    dispatchTime r1 + 13000 ≤ dispatchTime r2 := by
  unfold handlerDone callEndTime dispatchTime at *
  omega

/-- C2 (amended, witness): a second request issued exactly when a first
(500 ms call) finishes is dispatched 13500 ms after the first's start. -/
theorem C2_amended_witness :
    callEndTime ⟨0, 500⟩ + 13000 ≤ dispatchTime ⟨13500, 100⟩ ∧
    dispatchTime ⟨0, 500⟩ + 13000 ≤ dispatchTime ⟨13500, 100⟩ :=
  C2_amended ⟨0, 500⟩ ⟨13500, 100⟩ (by decide)

/-- C3 (code bug): a payload entry with both price fields missing parses to a
`NaN` close; the `typeof item.close !== 'number'` guard does not fire on it
(`typeof NaN` is `number`), so instead of the intended
`Invalid price data at index ...` failure carrying the offending index, the
fetch dies on `JSON.parse` of the hand-built string with the generic
construction 500 — and the malformed series has already been cached. -/
theorem C3_nan_close_generic_500 :
    closingPrices [("2024-01-02", ⟨none, none⟩)] = [⟨"2024-01-02", none⟩] ∧
    firstBadPoint [⟨"2024-01-02", (none : Option ℚ)⟩] 0 = none ∧
    buildResponseOutcome "AAPL" [⟨"2024-01-02", none⟩] = .constructErr .jsonSyntaxError ∧
    (stockHandler [] 0 "AAPL"
        (.body ⟨some [("2024-01-02", ⟨none, none⟩)], none, none⟩) 5000).1 =
      .constructErr .jsonSyntaxError ∧
    (stockHandler [] 0 "AAPL"
        (.body ⟨some [("2024-01-02", ⟨none, none⟩)], none, none⟩) 5000).2.1 =
      [("AAPL", ⟨[⟨"2024-01-02", none⟩], 5000⟩)] := by
  decide

/-- C4: a valid symbol whose cache entry is younger than 3600 seconds is
answered from the cache with `cached = true` and the stored series, with no
outbound provider call, no cache mutation, and (in the backup, the only
variant with a usage tracker) no usage-tracker update. -/
theorem C4_fresh_cache_hit (st : CacheState) (usage : UsageState) (c : Clock)
    (raw : String) (resp : ProviderResult) (tSet : ℕ) (entry : CacheEntry)
    (hv : validateStockSymbol (jsToUpper raw) = true)
    (hl : lookupC st (jsToUpper raw) = some entry)
    (hfresh : c.nowMs < entry.insertedAt + 3600 * 1000) :
    stockHandler st c.nowMs raw resp tSet =
      (.ok (jsToUpper raw) entry.value true, st, false) ∧
    stockHandlerBackup st usage c raw resp tSet =
      (.ok (jsToUpper raw) entry.value true, (st, usage), false) := by
  have hg : cacheGet st (jsToUpper raw) c.nowMs = some entry.value := by
    simp [cacheGet, hl, Nat.le_of_lt hfresh]
  have hmap : entry.value.map (fun p => (⟨p.date, p.close⟩ : PricePoint)) = entry.value :=
    List.map_id entry.value
  constructor
  · simp [stockHandler, hv, hg, hmap]
  · simp [stockHandlerBackup, hv, hg]

/-- C4 (witness): a fresh `AAPL` entry is served back unchanged with
`cached = true`, no outbound call and untouched states. -/
theorem C4_fresh_cache_hit_witness :
    stockHandler [("AAPL", ⟨[⟨"2024-01-02", some 185⟩], 0⟩)] 1000 "AAPL" .netFail 0 =
      (.ok "AAPL" [⟨"2024-01-02", some 185⟩] true,
        [("AAPL", ⟨[⟨"2024-01-02", some 185⟩], 0⟩)], false) ∧
    stockHandlerBackup [("AAPL", ⟨[⟨"2024-01-02", some 185⟩], 0⟩)] []
        ⟨1000, 2024, 0, 2, 10, 30⟩ "AAPL" .netFail 0 =
      (.ok "AAPL" [⟨"2024-01-02", some 185⟩] true,
        ([("AAPL", ⟨[⟨"2024-01-02", some 185⟩], 0⟩)], []), false) :=
  C4_fresh_cache_hit [("AAPL", ⟨[⟨"2024-01-02", some 185⟩], 0⟩)] []
    ⟨1000, 2024, 0, 2, 10, 30⟩ "AAPL" .netFail 0 ⟨[⟨"2024-01-02", some 185⟩], 0⟩
    (by decide) (by decide) (by decide)

/-- C5 (counterexample): the raw input `aapl` neither matches the 1-5
uppercase-letter format nor belongs to the allow-list, yet the request is
not rejected: the handler uppercases it first, dispatches an outbound call
and answers 200. -/
theorem C5_counterexample :
    matchesSymbolPattern "aapl" = false ∧
    validSymbols.contains "aapl" = false ∧
    (stockHandler [] 0 "aapl"
        (.body ⟨some [("2024-01-02", ⟨some "185.6000", none⟩)], none, none⟩) 0).2.2 = true ∧
    outcomeStatus (stockHandler [] 0 "aapl"
        (.body ⟨some [("2024-01-02", ⟨some "185.6000", none⟩)], none, none⟩) 0).1 = 200 := by
  decide

/-- C5 (amended): every raw input whose uppercased form fails the validator
(format or allow-list) is answered `Invalid stock symbol` with HTTP 400, with
no outbound provider call and no state mutation, in both server variants. -/
theorem C5_amended (st : CacheState) (usage : UsageState) (c : Clock) (now : ℕ)
    (raw : String) (resp : ProviderResult) (tSet : ℕ)
    (h : validateStockSymbol (jsToUpper raw) = false) :
    stockHandler st now raw resp tSet = (.err "Invalid stock symbol" 400, st, false) ∧
    stockHandlerBackup st usage c raw resp tSet =
      (.err "Invalid stock symbol" 400, (st, usage), false) := by
  constructor
  · simp [stockHandler, h]
  · simp [stockHandlerBackup, h]

/-- C5 (amended, witness): `XOM` (well-formed but not allow-listed) is
rejected with 400 and no side effects. -/
theorem C5_amended_witness :
    stockHandler [] 0 "XOM" .netFail 0 = (.err "Invalid stock symbol" 400, [], false) ∧
    stockHandlerBackup [] [] ⟨0, 0, 0, 0, 0, 0⟩ "XOM" .netFail 0 =
      (.err "Invalid stock symbol" 400, ([], []), false) :=
  C5_amended [] [] ⟨0, 0, 0, 0, 0, 0⟩ 0 "XOM" .netFail 0 (by decide)

/-- C6: for a payload whose date keys all parse as calendar dates and are
pairwise distinct, the transform's output is strictly ascending by date and
hence free of duplicate dates. -/
theorem C6_sorted_nodup (ts : List (String × TsEntry))
    (hvalid : ∀ e ∈ ts, (parseIsoDate e.1).isSome = true)
    (hnodup : ts.Pairwise (fun a b => a.1 ≠ b.1)) :
    (closingPrices ts).Pairwise (fun p q => dateVal p.date < dateVal q.date) ∧
    (closingPrices ts).Pairwise (fun p q => p.date ≠ q.date) := by
  have hsorted : (closingPrices ts).Pairwise dateLe :=
    List.sorted_insertionSort dateLe (ts.map entryToPoint)
  have hmap : (ts.map entryToPoint).Pairwise
      (fun p q => dateVal p.date ≠ dateVal q.date) := by
    rw [List.pairwise_map]
    refine List.Pairwise.imp_of_mem ?_ hnodup
    intro a b ha hb hne
    have hpne : parseIsoDate a.1 ≠ parseIsoDate b.1 := by
      intro hpe
      obtain ⟨va, hva⟩ := Option.isSome_iff_exists.mp (hvalid a ha)
      exact hne (parseIsoDate_inj hva (hpe ▸ hva))
    exact dateVal_ne_of_parse_ne (hvalid a ha) (hvalid b hb) hpne
  have hperm : (closingPrices ts).Perm (ts.map entryToPoint) :=
    List.perm_insertionSort dateLe (ts.map entryToPoint)
  have hne : (closingPrices ts).Pairwise
      (fun p q => dateVal p.date ≠ dateVal q.date) :=
    (hperm.pairwise_iff (fun h => Ne.symm h)).mpr hmap
  have hlt : (closingPrices ts).Pairwise
      (fun p q => dateVal p.date < dateVal q.date) :=
    (hsorted.and hne).imp (fun h => Nat.lt_of_le_of_ne h.1 h.2)
  refine ⟨hlt, hlt.imp ?_⟩
  intro a b hab heq
  rw [heq] at hab
  exact Nat.lt_irrefl _ hab

/-- C6 (witness): a two-entry payload given in descending order comes out
strictly ascending by date with distinct dates. -/
theorem C6_sorted_nodup_witness :
    (closingPrices [("2024-01-03", ⟨some "10", none⟩),
        ("2024-01-02", ⟨some "9", none⟩)]).Pairwise
      (fun p q => dateVal p.date < dateVal q.date) ∧
    (closingPrices [("2024-01-03", ⟨some "10", none⟩),
        ("2024-01-02", ⟨some "9", none⟩)]).Pairwise
      (fun p q => p.date ≠ q.date) :=
  C6_sorted_nodup _ (by decide) (by decide)

/-- C7: a series stored with `cache.set` and read back with `cache.get`
within the 3600-second TTL window is returned unchanged, field for field. -/
theorem C7_roundtrip (c : CacheState) (sym : String) (ts : List (String × TsEntry))
    (series : List PricePoint) (tIns now : ℕ)
    (hprod : series = closingPrices ts)
    (httl : now ≤ tIns + 3600 * 1000) :
    cacheGet (cacheSet c sym series tIns) sym now = some series := by
  simp [cacheGet, cacheSet, lookupC_setAssoc, httl]

/-- C7 (witness): a one-point series stored at t = 1000 ms is read back
intact at the last instant of its TTL window. -/
theorem C7_roundtrip_witness :
    cacheGet (cacheSet [] "AAPL"
        (closingPrices [("2024-01-02", ⟨some "185", none⟩)]) 1000) "AAPL" 3601000 =
      some (closingPrices [("2024-01-02", ⟨some "185", none⟩)]) :=
  C7_roundtrip [] "AAPL" [("2024-01-02", ⟨some "185", none⟩)]
    (closingPrices [("2024-01-02", ⟨some "185", none⟩)]) 1000 3601000 rfl (by decide)

/-- C8 (counterexample): the validator itself performs no uppercase
normalization — it rejects `aapl` outright even though the uppercased form
`AAPL` is accepted; the claimed case-insensitive acceptance fails at the
validator. -/
theorem C8_counterexample :
    validateStockSymbol "aapl" = false ∧
    jsToUpper "aapl" = "AAPL" ∧
    validateStockSymbol (jsToUpper "aapl") = true := by
  decide

/-- C8 (amended): `validateStockSymbol` accepts exactly the strings that both
match the 1-5 uppercase-letter pattern and belong to the fixed allow-list; it
is a total Lean function, hence deterministic and non-throwing; normalization
is the caller's duty. -/
theorem C8_amended (s : String) :
    validateStockSymbol s = true ↔
      ((1 ≤ s.data.length ∧ s.data.length ≤ 5 ∧ ∀ c ∈ s.data, 'A' ≤ c ∧ c ≤ 'Z') ∧
        s ∈ validSymbols) := by
  unfold validateStockSymbol matchesSymbolPattern
  simp [List.all_eq_true, and_assoc]

/-- C8 (amended, witness): `AAPL` satisfies both conditions and is accepted. -/
theorem C8_amended_witness : validateStockSymbol "AAPL" = true :=
  (C8_amended "AAPL").mpr (by decide)

/-- C9 (counterexample): the 500 produced by a malformed (NaN-priced)
payload — the failure the spec calls `MalformedResponse` — is sent as
`{status, error, details}`: it carries no `timestamp` field, unlike the
stable envelope the claim promises for every error kind. -/
theorem C9_counterexample :
    responseFields ((stockHandler [] 0 "MSFT"
        (.body ⟨some [("2024-01-03", ⟨none, none⟩)], none, none⟩) 0).1) =
      ["status", "error", "details"] ∧
    "timestamp" ∉ responseFields ((stockHandler [] 0 "MSFT"
        (.body ⟨some [("2024-01-03", ⟨none, none⟩)], none, none⟩) 0).1) := by
  decide

/-- C9 (amended): every error answered through `res.apiError` — invalid
symbol (400), rate-limited (429), not-found (404), information (400) and
network failure (500) all go through it — carries the stable
`status`/`error`/`timestamp` envelope, the kinds distinguished only by the
HTTP status code; only the response-construction 500 deviates, replacing
`timestamp` with `details`. -/
theorem C9_amended (st : CacheState) (now : ℕ) (raw : String) (resp : ProviderResult)
    (tSet : ℕ) (msg : String) (code : ℕ)
    (h : (stockHandler st now raw resp tSet).1 = .err msg code) :
    responseFields (stockHandler st now raw resp tSet).1 = ["status", "error", "timestamp"] ∧
    outcomeStatus (stockHandler st now raw resp tSet).1 = code := by
  rw [h]
  exact ⟨rfl, rfl⟩

/-- C9 (amended, witness): the invalid-symbol rejection of `XOM` carries the
full envelope and its status code. -/
theorem C9_amended_witness :
    responseFields (stockHandler [] 0 "XOM" .netFail 0).1 =
      ["status", "error", "timestamp"] ∧
    outcomeStatus (stockHandler [] 0 "XOM" .netFail 0).1 = 400 :=
  C9_amended [] 0 "XOM" .netFail 0 "Invalid stock symbol" 400 (by decide)

/-- C10: whenever a request ends in a `res.apiError` reply (invalid symbol,
rate-limited, not-found, information, or network failure), the cache is left
unchanged; the cache is written only on the branch where the provider body
contains the time-series field, in both server variants. -/
theorem C10_no_cache_write_on_error (st : CacheState) (usage : UsageState) (c : Clock)
    (now : ℕ) (raw : String) (resp : ProviderResult) (tSet : ℕ) :
    (∀ msg code, (stockHandler st now raw resp tSet).1 = .err msg code →
      (stockHandler st now raw resp tSet).2.1 = st) ∧
    ((stockHandler st now raw resp tSet).2.1 ≠ st →
      ∃ b ts, resp = .body b ∧ b.timeSeries = some ts) ∧
    (∀ msg code, (stockHandlerBackup st usage c raw resp tSet).1 = .err msg code →
      (stockHandlerBackup st usage c raw resp tSet).2.1.1 = st) ∧
    ((stockHandlerBackup st usage c raw resp tSet).2.1.1 ≠ st →
      ∃ b ts, resp = .body b ∧ b.timeSeries = some ts) := by
  by_cases hv : validateStockSymbol (jsToUpper raw) = true
  · refine ⟨?_, ?_, ?_, ?_⟩
    · intro msg code h
      cases hcg : cacheGet st (jsToUpper raw) now
      · cases resp with
        | netFail => simp [stockHandler, hv, hcg]
        | nullData => simp [stockHandler, hv, hcg]
        | body b =>
          cases hts : b.timeSeries with
          | none => simp [stockHandler, hv, hcg, hts]
          | some ts =>
            simp [stockHandler, hv, hcg, hts] at h
            exact absurd h (buildResponseOutcome_ne_err _ _ _ _)
      · simp [stockHandler, hv, hcg]
    · intro hne
      cases hcg : cacheGet st (jsToUpper raw) now
      · cases resp with
        | netFail => simp [stockHandler, hv, hcg] at hne
        | nullData => simp [stockHandler, hv, hcg] at hne
        | body b =>
          cases hts : b.timeSeries with
          | none => simp [stockHandler, hv, hcg, hts] at hne
          | some ts => exact ⟨b, ts, rfl, hts⟩
      · simp [stockHandler, hv, hcg] at hne
    · intro msg code h
      cases hcg : cacheGet st (jsToUpper raw) c.nowMs
      · cases resp with
        | netFail => simp [stockHandlerBackup, hv, hcg]
        | nullData => simp [stockHandlerBackup, hv, hcg]
        | body b =>
          cases hts : b.timeSeries with
          | none => simp [stockHandlerBackup, hv, hcg, hts]
          | some ts => simp [stockHandlerBackup, hv, hcg, hts] at h
      · simp [stockHandlerBackup, hv, hcg]
    · intro hne
      cases hcg : cacheGet st (jsToUpper raw) c.nowMs
      · cases resp with
        | netFail => simp [stockHandlerBackup, hv, hcg] at hne
        | nullData => simp [stockHandlerBackup, hv, hcg] at hne
        | body b =>
          cases hts : b.timeSeries with
          | none => simp [stockHandlerBackup, hv, hcg, hts] at hne
          | some ts => exact ⟨b, ts, rfl, hts⟩
      · simp [stockHandlerBackup, hv, hcg] at hne
  · refine ⟨?_, ?_, ?_, ?_⟩ <;> simp [stockHandler, stockHandlerBackup, hv]

/-- C10 (witness): the invalid-symbol failure for `XOM` leaves the (empty)
cache untouched. -/
theorem C10_no_cache_write_on_error_witness :
    (stockHandler [] 0 "XOM" .netFail 0).2.1 = [] :=
  (C10_no_cache_write_on_error [] [] ⟨0, 0, 0, 0, 0, 0⟩ 0 "XOM" .netFail 0).1
    "Invalid stock symbol" 400 (by decide)
